import Mathlib

/-!
Shallow embedding of the Application Access & Log Query Engine of the
syslog-website repository (src/api/applications.ts), together with proofs
of the specified properties.

The relational store and the search backend are external collaborators;
their record-level behaviour is modelled here as explicit Lean data
(lists of records, a list of existing index names).  All definitions are
translated from the source file; the few pieces of repository code that
are imported by src/api/applications.ts but absent from src/ (the
application cache lookup, the create-body schema, and the search
backend's query execution) are modelled from the spec and marked as such
in their doc comments.
-/

namespace Syslog

/-- Application (tenant) record, as produced by the creation handler:
id, name, the 20-character key credential, the mutually exclusive
ownerId/teamId references, and the timestamps. -/
structure Application where
  id        : Nat
  name      : String
  key       : String
  ownerId   : Option Nat
  teamId    : Option Nat
  createdAt : Nat
  updatedAt : Nat
deriving Repr, DecidableEq

/-- Team record: id and the set of member user ids (represented as a
list; membership is the only semantic used). -/
structure Team where
  id        : Nat
  memberIds : List Nat
deriving Repr, DecidableEq

/-- State of the external stores as the handlers see them: the
Application table, the Team table, and the set of index names that exist
in the search backend. -/
structure Store where
  applications : List Application
  teams        : List Team
  indices      : List String
deriving Repr, DecidableEq

/-- Deterministic per-tenant index name, from the template literal
`syslog-$\x7bid\x7d` used throughout src/api/applications.ts. -/
def indexName (id : Nat) : String :=
  "syslog-" ++ toString id

/-- Lookup of a Team by primary key, the `teamRepo.findOne(teamId)`
calls in the create handler and the applicationId param handler. -/
def findTeam (teams : List Team) (tid : Nat) : Option Team :=
  teams.find? (fun t => t.id == tid)

/-- Modelled from the spec: `getById` from src/api/utils/applicationCache.ts
(file absent from src/) — a lookup of the Application record by id that
MAY be served from a cache; the spec (section 4.2 step 1, section 5) says it
returns the Application with that id or nothing.  The `cache` argument is
the snapshot of Application records the lookup answers from. -/
def getById (cache : List Application) (aid : Nat) : Option Application :=
  cache.find? (fun a => a.id == aid)

/-- Outcome of the applicationId param handler (the access resolver):
either the request proceeds with the resolved Application attached to
it, or an error envelope is sent. -/
inductive ResolveResult where
  | granted (app : Application)
  | httpError (code : Nat) (message : String)
deriving Repr, DecidableEq

/-- The `router.param('applicationId')` handler (src/api/applications.ts
lines 125-167): load the Application through the cache lookup; 404 if it
does not exist; grant if the user is the owner; otherwise if a teamId is
set, load the Team from the store and grant if it exists and contains
the user; otherwise 403.  The Team table passed in is the store's state
at the time of this request. -/
def resolveApplication (cache : List Application) (teams : List Team)
    (userId : Nat) (applicationId : Nat) : ResolveResult :=
  match getById cache applicationId with
  | none => .httpError 404 "Unknown application"
  | some application =>
    if application.ownerId = some userId then
      .granted application
    else
      match application.teamId with
      | some teamId =>
        match findTeam teams teamId with
        | some team =>
          if userId ∈ team.memberIds then .granted application
          else .httpError 403 "You have no access to this application"
        | none => .httpError 403 "You have no access to this application"
      | none => .httpError 403 "You have no access to this application"

/-- Request body of POST /create: `name` and the optional `teamId`.
The `name` field is an Option because its presence is exactly what the
schema validation checks. -/
structure CreateBody where
  name   : Option String
  teamId : Option Nat
deriving Repr, DecidableEq

/-- Outcome of the create handler.  `created` is the 200 response
carrying the full new record (key included); `httpError` is an error
envelope sent with `res.status(...).send(...)`; `rejected` is an
uncaught rejection of the handler's promise (an awaited backend call
threw and no response was sent by the handler). -/
inductive CreateResult where
  | created (app : Application)
  | httpError (code : Nat) (message : String)
  | rejected
deriving Repr, DecidableEq

/-- Persist the new Application record, then create its index
(src/api/applications.ts lines 115-120).  `provisionOk` is the outcome
of the `esClient.indices.create` call; when it is false the awaited call
throws after the record was already saved, so the handler's promise
rejects and the success response is never sent. -/
def saveAndProvision (app : Application) (provisionOk : Bool) (s : Store) :
    CreateResult × Store :=
  let saved : Store := { s with applications := s.applications ++ [app] }
  if provisionOk then
    (.created app, { saved with indices := saved.indices ++ [indexName app.id] })
  else
    (.rejected, saved)

/-- The POST /create handler (src/api/applications.ts lines 73-123).
Schema validation is modelled from the spec: src/schemas/application.ts
is absent from src/, and the spec (section 4.1 step 1) says it checks that
`name` is present and yields a 400 otherwise.  Everything after
validation is translated from the source: with a `teamId`, the Team must
exist (400 "Unknown team") and contain the creator (403 otherwise) and
the record gets that `teamId`; without one the record gets
`ownerId = userId`; then the key is attached, the record is saved, and
the index is provisioned.  `newId` is the store-assigned id, `newKey`
the generated 20-character key, `now` the store-assigned timestamps. -/
def createApplication (userId : Nat) (body : CreateBody) (newId : Nat)
    (newKey : String) (now : Nat) (provisionOk : Bool) (s : Store) :
    CreateResult × Store :=
  match body.name with
  | none => (.httpError 400 "name is a required field", s)
  | some nm =>
    match body.teamId with
    | some tid =>
      match findTeam s.teams tid with
      | none => (.httpError 400 "Unknown team", s)
      | some team =>
        if userId ∈ team.memberIds then
          saveAndProvision
            { id := newId, name := nm, key := newKey, ownerId := none,
              teamId := some tid, createdAt := now, updatedAt := now }
            provisionOk s
        else
          (.httpError 403 "You don\x27t have access to this team", s)
    | none =>
      saveAndProvision
        { id := newId, name := nm, key := newKey, ownerId := some userId,
          teamId := none, createdAt := now, updatedAt := now }
        provisionOk s

/-- Externally shaped Application projection used by GET /list and
GET /:applicationId: id, name, teamId, ownerId, createdAt, updatedAt.
The `key` field has no counterpart here. -/
structure ApplicationSummary where
  id        : Nat
  name      : String
  teamId    : Option Nat
  ownerId   : Option Nat
  createdAt : Nat
  updatedAt : Nat
deriving Repr, DecidableEq

/-- The projection applied to each listed Application
(src/api/applications.ts lines 61-70). -/
def project (a : Application) : ApplicationSummary :=
  { id := a.id, name := a.name, teamId := a.teamId, ownerId := a.ownerId,
    createdAt := a.createdAt, updatedAt := a.updatedAt }

/-- The GET /list handler (src/api/applications.ts lines 31-71): the
Applications whose ownerId is the user, concatenated with, for every
Team whose memberIds contain the user, the Applications whose teamId is
that Team's id; each shaped by `project`. -/
def listApplicationsFor (userId : Nat) (s : Store) : List ApplicationSummary :=
  let personal := s.applications.filter (fun a => a.ownerId == some userId)
  let userTeams := s.teams.filter (fun t => t.memberIds.contains userId)
  let teamApps :=
    userTeams.flatMap (fun t => s.applications.filter (fun a => a.teamId == some t.id))
  (personal ++ teamApps).map project

/-- Log record held in a tenant's index: the backend-assigned orderable
id, the time used for sorting, and the searched message text. -/
structure LogRecord where
  id      : Nat
  time    : Nat
  message : String
deriving Repr, DecidableEq

/-- Full-text match clause as the handlers build it: the query text and
the minimum_should_match percentage (always 80). -/
structure MatchQuery where
  query                 : String
  minimumShouldMatchPct : Nat
deriving Repr, DecidableEq

/-- Helper of `splitWords`: walk the character list, accumulating the
current word (reversed) and emitting it at each space. -/
def splitWordsAux : List Char → List Char → List String
  | [], acc => if acc.isEmpty then [] else [String.mk acc.reverse]
  | c :: cs, acc =>
    if c = ' ' then
      if acc.isEmpty then splitWordsAux cs []
      else String.mk acc.reverse :: splitWordsAux cs []
    else splitWordsAux cs (c :: acc)

/-- Whitespace tokenization of a text into its words. -/
def splitWords (s : String) : List String :=
  splitWordsAux s.data []

/-- Modelled from the spec: the search backend's evaluation of a
match-with-threshold clause against a record's message (section 4.3:
full-text match requiring at least 80 percent of the query's terms to
match the message).  Terms are whitespace-separated words; a term
matches when it occurs among the message's words. -/
def matchSatisfied (q : MatchQuery) (message : String) : Bool :=
  let terms := splitWords q.query
  let msgTerms := splitWords message
  decide ((terms.filter (fun t => msgTerms.contains t)).length * 100 ≥
    terms.length * q.minimumShouldMatchPct)

/-- The bool query built by the history handler
(src/api/applications.ts lines 260-281): a range filter `id < before`,
and, when `content` was supplied, a must clause with the 80 percent
match on message. -/
structure HistoryQuery where
  filterIdLt : Nat
  must       : Option MatchQuery
deriving Repr, DecidableEq

/-- Modelled from the spec: the search backend's evaluation of the
history bool query on one record — the range filter and, when present,
the must clause both hold (AND semantics, section 4.3). -/
def docMatchesHistory (q : HistoryQuery) (d : LogRecord) : Bool :=
  decide (d.id < q.filterIdLt) &&
    (match q.must with
     | none => true
     | some m => matchSatisfied m d.message)

/-- Insert a record into a list kept sorted by time descending. -/
def insertByTimeDesc (r : LogRecord) : List LogRecord → List LogRecord
  | [] => [r]
  | x :: xs =>
    if x.time ≤ r.time then r :: x :: xs else x :: insertByTimeDesc r xs

/-- Sort records by time descending (the `sort: 'time:desc'` option all
three read modes pass to the backend). -/
def sortByTimeDesc : List LogRecord → List LogRecord
  | [] => []
  | x :: xs => insertByTimeDesc x (sortByTimeDesc xs)

/-- Modelled from the spec: execution of a search request against the
tenant's index — keep the documents satisfying the query, sort by time
descending, and return at most `size` of them. -/
def runQuery (docs : List LogRecord) (keep : LogRecord → Bool) (size : Nat) :
    List LogRecord :=
  (sortByTimeDesc (docs.filter keep)).take size

/-- Response of a logs endpoint: a JSON array of records, or an error
envelope. -/
inductive LogsOutcome where
  | ok (records : List LogRecord)
  | err (code : Nat) (message : String)
deriving Repr, DecidableEq

/-- The GET /:applicationId/logs/search pipeline for an authorized
request: first the logs/* middleware (src/api/applications.ts lines
182-194) answers `[]` when the tenant's index does not exist; then the
search handler (lines 196-229) answers 400 when `content` is missing,
and otherwise runs the 80 percent match query, time descending, size
100.  `es` is the list of index names existing in the backend and
`docs` the documents of this tenant's index. -/
def searchEndpoint (es : List String) (docs : List LogRecord)
    (app : Application) (content : Option String) : LogsOutcome :=
  if es.contains (indexName app.id) = false then
    .ok []
  else
    match content with
    | none => .err 400 "Missing \"content\" parameter"
    | some c =>
      .ok (runQuery docs
        (fun d => matchSatisfied { query := c, minimumShouldMatchPct := 80 } d.message)
        100)

/-- The GET /:applicationId/logs/history pipeline for an authorized
request: the same logs/* middleware first, then the history handler
(src/api/applications.ts lines 248-298): 400 when `before` is missing,
otherwise the bool query with the `id < before` range filter, plus the
match clause when `content` is present; time descending, size 100. -/
def historyEndpoint (es : List String) (docs : List LogRecord)
    (app : Application) (before : Option Nat) (content : Option String) :
    LogsOutcome :=
  if es.contains (indexName app.id) = false then
    .ok []
  else
    match before with
    | none => .err 400 "Missing \"before\" parameter"
    | some b =>
      .ok (runQuery docs
        (docMatchesHistory
          { filterIdLt := b,
            must := content.map (fun c => { query := c, minimumShouldMatchPct := 80 }) })
        100)

/-- Exactly one of ownerId and teamId is set. -/
def exclusiveOwnership (a : Application) : Bool :=
  (a.ownerId.isSome && a.teamId.isNone) || (a.ownerId.isNone && a.teamId.isSome)

/-- Store states reachable through the registry: starting from a store
with no Applications, the Application table is written only by the
create handler; the Team table (managed outside this router) may change
arbitrarily between steps. -/
inductive Reachable : Store → Prop where
  | init (teams : List Team) (indices : List String) :
      Reachable { applications := [], teams := teams, indices := indices }
  | create (s : Store) (userId : Nat) (body : CreateBody) (newId : Nat)
      (newKey : String) (now : Nat) (provisionOk : Bool) :
      Reachable s →
      Reachable (createApplication userId body newId newKey now provisionOk s).2
  | updateTeams (s : Store) (teams : List Team) :
      Reachable s → Reachable { s with teams := teams }

/-! Concrete sample records used to evaluate the theorems on explicit
inputs. -/

/-- Sample tenant owned directly by user 1. -/
def appOwned : Application :=
  { id := 1, name := "alpha", key := "k1aaaaaaaaaaaaaaaaaa", ownerId := some 1,
    teamId := none, createdAt := 0, updatedAt := 0 }

/-- Sample tenant owned by Team 5. -/
def appTeam : Application :=
  { id := 2, name := "beta", key := "k2bbbbbbbbbbbbbbbbbb", ownerId := none,
    teamId := some 5, createdAt := 0, updatedAt := 0 }

/-- Team 5 while user 2 is still a member. -/
def teamIn : Team := { id := 5, memberIds := [2, 3] }

/-- Team 5 after user 2 has been removed. -/
def teamOut : Team := { id := 5, memberIds := [3] }

/-- Team 7, which user 2 is not a member of. -/
def teamOther : Team := { id := 7, memberIds := [3] }

/-- Sample store holding both tenants and the three teams. -/
def sampleStore : Store :=
  { applications := [appOwned, appTeam], teams := [teamIn, teamOther],
    indices := [] }

/-- Older sample log record. -/
def logOld : LogRecord := { id := 4, time := 10, message := "disk error found" }

/-- Newer sample log record. -/
def logNew : LogRecord := { id := 12, time := 20, message := "disk error found" }

/-! Helper lemmas. -/

/-- Once the Application is loaded, the resolver decides exactly on the
owner check and the team lookup. -/
theorem resolveApplication_of_getById {cache : List Application}
    {aid : Nat} {app : Application} (teams : List Team) (userId : Nat)
    (h : getById cache aid = some app) :
    resolveApplication cache teams userId aid =
      (if app.ownerId = some userId then .granted app
       else
         match app.teamId with
         | some teamId =>
           match findTeam teams teamId with
           | some team =>
             if userId ∈ team.memberIds then .granted app
             else .httpError 403 "You have no access to this application"
           | none => .httpError 403 "You have no access to this application"
         | none => .httpError 403 "You have no access to this application") := by
  unfold resolveApplication
  rw [h]

/-- A Team returned by `findTeam` is in the table and has the looked-up
id. -/
theorem findTeam_some {teams : List Team} {tid : Nat} {team : Team}
    (h : findTeam teams tid = some team) : team ∈ teams ∧ team.id = tid := by
  refine ⟨List.mem_of_find?_eq_some h, ?_⟩
  have := List.find?_some h
  exact beq_iff_eq.mp this

/-- A non-owner whose id is outside the current member list of every
Team the Application could point at is denied. -/
theorem resolve_denied_of_not_member {cache : List Application}
    {teams : List Team} {userId aid : Nat} {app : Application}
    (h1 : getById cache aid = some app)
    (h2 : app.ownerId ≠ some userId)
    (h3 : ∀ team ∈ teams, app.teamId = some team.id → userId ∉ team.memberIds) :
    resolveApplication cache teams userId aid =
      .httpError 403 "You have no access to this application" := by
  rw [resolveApplication_of_getById teams userId h1, if_neg h2]
  cases happ : app.teamId with
  | none => rfl
  | some tid =>
    cases hft : findTeam teams tid with
    | none => simp [hft]
    | some team =>
      obtain ⟨hmem, hid⟩ := findTeam_some hft
      have hno : userId ∉ team.memberIds := h3 team hmem (by rw [happ, hid])
      simp [hft, hno]

/-- C1: access resolution for a tenant-scoped request — when no
Application with the id exists the request fails with 404; when the
Application's ownerId is the user the request is granted; when the
teamId is set, the Team exists and the user is in its memberIds the
request is granted; in every other case the request fails with 403. -/
theorem resolveApplication_access (cache : List Application)
    (teams : List Team) (userId aid : Nat) :
    (getById cache aid = none →
      resolveApplication cache teams userId aid =
        .httpError 404 "Unknown application") ∧
    (∀ app, getById cache aid = some app → app.ownerId = some userId →
      resolveApplication cache teams userId aid = .granted app) ∧
    (∀ app tid team, getById cache aid = some app →
      app.teamId = some tid → findTeam teams tid = some team →
      userId ∈ team.memberIds →
      resolveApplication cache teams userId aid = .granted app) ∧
    (∀ app, getById cache aid = some app → app.ownerId ≠ some userId →
      (∀ team ∈ teams, app.teamId = some team.id → userId ∉ team.memberIds) →
      resolveApplication cache teams userId aid =
        .httpError 403 "You have no access to this application") := by
  refine ⟨?_, ?_, ?_, ?_⟩
  · intro h
    unfold resolveApplication
    rw [h]
  · intro app h1 h2
    rw [resolveApplication_of_getById teams userId h1, if_pos h2]
  · intro app tid team h1 h2 h3 h4
    rw [resolveApplication_of_getById teams userId h1]
    by_cases howner : app.ownerId = some userId
    · rw [if_pos howner]
    · rw [if_neg howner]
      simp [h2, h3, h4]
  · intro app h1 h2 h3
    exact resolve_denied_of_not_member h1 h2 h3

/-- Witness for C1: user 1 owns `appOwned` and is granted; user 9 is
neither owner nor member and gets 403; a missing id gets 404; user 3 of
Team 5 is granted on `appTeam`. -/
theorem resolveApplication_access_witness :
    resolveApplication [appOwned, appTeam] [teamIn] 1 1 = .granted appOwned ∧
    resolveApplication [appOwned, appTeam] [teamIn] 9 1 =
      .httpError 403 "You have no access to this application" ∧
    resolveApplication [appOwned, appTeam] [teamIn] 1 77 =
      .httpError 404 "Unknown application" ∧
    resolveApplication [appOwned, appTeam] [teamIn] 3 2 = .granted appTeam :=
  ⟨(resolveApplication_access [appOwned, appTeam] [teamIn] 1 1).2.1 appOwned
      (by decide) (by decide),
   (resolveApplication_access [appOwned, appTeam] [teamIn] 9 1).2.2.2 appOwned
      (by decide) (by decide) (by decide),
   (resolveApplication_access [appOwned, appTeam] [teamIn] 1 77).1 (by decide),
   (resolveApplication_access [appOwned, appTeam] [teamIn] 3 2).2.2.1 appTeam 5
      teamIn (by decide) (by decide) (by decide) (by decide)⟩

/-- C2: the authorization decision is a function of the Team table as
it stands at the request — whatever Application snapshot the cache
serves, a non-owner outside the current member list of the owning Team
is denied on that request (no stale grant). -/
theorem resolveApplication_no_stale_grant (cache : List Application)
    (teamsNow : List Team) (userId aid : Nat) (app : Application)
    (h1 : getById cache aid = some app)
    (h2 : app.ownerId ≠ some userId)
    (h3 : ∀ team ∈ teamsNow, app.teamId = some team.id →
      userId ∉ team.memberIds) :
    resolveApplication cache teamsNow userId aid =
      .httpError 403 "You have no access to this application" :=
  resolve_denied_of_not_member h1 h2 h3

/-- Witness for C2: with the same cached Application, user 2 is granted
while Team 5 lists them and denied on the request made after their
removal. -/
theorem resolveApplication_no_stale_grant_witness :
    resolveApplication [appTeam] [teamIn] 2 2 = .granted appTeam ∧
    resolveApplication [appTeam] [teamOut] 2 2 =
      .httpError 403 "You have no access to this application" :=
  ⟨by decide,
   resolveApplication_no_stale_grant [appTeam] [teamOut] 2 2 appTeam
     (by decide) (by decide) (by decide)⟩

/-- Saving appends the record to the Application table whether or not
index provisioning then succeeds. -/
theorem saveAndProvision_applications (app : Application) (pOk : Bool)
    (s : Store) :
    (saveAndProvision app pOk s).2.applications = s.applications ++ [app] := by
  unfold saveAndProvision
  cases pOk <;> rfl

/-- One create call leaves the Application table unchanged or appends a
single record satisfying the ownership exclusivity. -/
theorem createApplication_applications_cases (userId : Nat) (b : CreateBody)
    (newId : Nat) (k : String) (now : Nat) (pOk : Bool) (s : Store) :
    (createApplication userId b newId k now pOk s).2.applications
        = s.applications ∨
    ∃ app, exclusiveOwnership app = true ∧
      (createApplication userId b newId k now pOk s).2.applications
        = s.applications ++ [app] := by
  obtain ⟨bn, bt⟩ := b
  unfold createApplication
  cases bn with
  | none => exact Or.inl rfl
  | some nm =>
    cases bt with
    | none =>
      exact Or.inr
        ⟨{ id := newId, name := nm, key := k, ownerId := some userId,
           teamId := none, createdAt := now, updatedAt := now },
         rfl, saveAndProvision_applications _ pOk s⟩
    | some tid =>
      cases hft : findTeam s.teams tid with
      | none => simp [hft]
      | some team =>
        by_cases hm : userId ∈ team.memberIds
        · refine Or.inr
            ⟨{ id := newId, name := nm, key := k, ownerId := none,
               teamId := some tid, createdAt := now, updatedAt := now },
             rfl, ?_⟩
          simp only [hft, if_pos hm]
          exact saveAndProvision_applications _ pOk s
        · refine Or.inl ?_
          simp only [hft, if_neg hm]

/-- C3: createApplication postconditions — without teamId the persisted
record carries ownerId = creator; with a teamId whose Team contains the
creator it carries that teamId and a null ownerId; with a teamId whose
Team excludes the creator the call answers 403 and leaves the store
unchanged; with an unknown teamId it answers 400 "Unknown team" and
leaves the store unchanged. -/
theorem createApplication_postconditions (userId : Nat) (nm : String)
    (newId : Nat) (k : String) (now : Nat) (pOk : Bool) (s : Store) :
    ((createApplication userId { name := some nm, teamId := none }
        newId k now pOk s).2.applications
      = s.applications ++
        [{ id := newId, name := nm, key := k, ownerId := some userId,
           teamId := none, createdAt := now, updatedAt := now }]) ∧
    (∀ tid team, findTeam s.teams tid = some team → userId ∈ team.memberIds →
      (createApplication userId { name := some nm, teamId := some tid }
          newId k now pOk s).2.applications
        = s.applications ++
          [{ id := newId, name := nm, key := k, ownerId := none,
             teamId := some tid, createdAt := now, updatedAt := now }]) ∧
    (∀ tid team, findTeam s.teams tid = some team → userId ∉ team.memberIds →
      createApplication userId { name := some nm, teamId := some tid }
          newId k now pOk s
        = (.httpError 403 "You don\x27t have access to this team", s)) ∧
    (∀ tid, findTeam s.teams tid = none →
      createApplication userId { name := some nm, teamId := some tid }
          newId k now pOk s
        = (.httpError 400 "Unknown team", s)) := by
  refine ⟨?_, ?_, ?_, ?_⟩
  · exact saveAndProvision_applications _ pOk s
  · intro tid team hft hm
    unfold createApplication
    simp only [hft, if_pos hm]
    exact saveAndProvision_applications _ pOk s
  · intro tid team hft hm
    unfold createApplication
    simp [hft, hm]
  · intro tid hft
    unfold createApplication
    simp [hft]

/-- Witness for C3: user 2 creating against `sampleStore` — a personal
tenant, a Team-5 tenant (member), a 403 against Team 7 (non-member),
and a 400 against the unknown Team 99. -/
theorem createApplication_postconditions_witness :
    ((createApplication 2 { name := some "gamma", teamId := none }
        9 "k9" 3 true sampleStore).2.applications
      = sampleStore.applications ++
        [{ id := 9, name := "gamma", key := "k9", ownerId := some 2,
           teamId := none, createdAt := 3, updatedAt := 3 }]) ∧
    ((createApplication 2 { name := some "gamma", teamId := some 5 }
        9 "k9" 3 true sampleStore).2.applications
      = sampleStore.applications ++
        [{ id := 9, name := "gamma", key := "k9", ownerId := none,
           teamId := some 5, createdAt := 3, updatedAt := 3 }]) ∧
    (createApplication 2 { name := some "gamma", teamId := some 7 }
        9 "k9" 3 true sampleStore
      = (.httpError 403 "You don\x27t have access to this team", sampleStore)) ∧
    (createApplication 2 { name := some "gamma", teamId := some 99 }
        9 "k9" 3 true sampleStore
      = (.httpError 400 "Unknown team", sampleStore)) :=
  ⟨(createApplication_postconditions 2 "gamma" 9 "k9" 3 true sampleStore).1,
   (createApplication_postconditions 2 "gamma" 9 "k9" 3 true sampleStore).2.1
     5 teamIn (by decide) (by decide),
   (createApplication_postconditions 2 "gamma" 9 "k9" 3 true sampleStore).2.2.1
     7 teamOther (by decide) (by decide),
   (createApplication_postconditions 2 "gamma" 9 "k9" 3 true sampleStore).2.2.2
     99 (by decide)⟩

/-- C4: every Application in a store reachable through the registry
(creation is the only write path to the Application table) has exactly
one of ownerId and teamId set. -/
theorem application_ownership_invariant (s : Store) (h : Reachable s) :
    ∀ a ∈ s.applications, exclusiveOwnership a = true := by
  induction h with
  | init teams idx =>
    intro a ha
    exact absurd ha (List.not_mem_nil a)
  | create s userId b newId k now pOk hs ih =>
    intro a ha
    rcases createApplication_applications_cases userId b newId k now pOk s with
      hcase | ⟨app, hex, hcase⟩
    · exact ih a (hcase ▸ ha)
    · rw [hcase] at ha
      rcases List.mem_append.mp ha with hl | hr
      · exact ih a hl
      · have : a = app := by simpa using hr
        exact this ▸ hex
  | updateTeams s teams hs ih =>
    intro a ha
    exact ih a ha

/-- Store obtained by one successful create call in an empty store. -/
def reachedStore : Store :=
  (createApplication 1 { name := some "alpha", teamId := none } 1 "k1" 0 true
    { applications := [], teams := [], indices := [] }).2

/-- Witness for C4: the record created in `reachedStore` satisfies the
exclusivity invariant. -/
theorem application_ownership_invariant_witness :
    exclusiveOwnership
      { id := 1, name := "alpha", key := "k1", ownerId := some 1,
        teamId := none, createdAt := 0, updatedAt := 0 } = true :=
  application_ownership_invariant reachedStore
    (Reachable.create _ 1 _ 1 "k1" 0 true (Reachable.init [] [])) _ (by decide)

/-- C9 counterexample: when index provisioning fails after the save,
the handler's awaited `esClient.indices.create` call throws with no
catch in scope, so the create request fails (the promise rejects, no
success response is sent) even though the record was persisted. -/
theorem create_provision_failure_counterexample :
    (createApplication 1 { name := some "alpha", teamId := none } 1 "k1" 0
        false { applications := [], teams := [], indices := [] }).1
      = CreateResult.rejected ∧
    { id := 1, name := "alpha", key := "k1", ownerId := some 1, teamId := none,
      createdAt := 0, updatedAt := 0 } ∈
      (createApplication 1 { name := some "alpha", teamId := none } 1 "k1" 0
          false { applications := [], teams := [], indices := [] }).2.applications := by
  decide

/-- C9 as amended: for every create call that passes validation and
authorization, if provisioning fails after the record is saved, the
Application record still exists in the store — but the request itself
fails: the provisioning error propagates out of the handler and the
success response is never sent. -/
theorem create_provision_failure_persists_record (userId : Nat) (nm : String)
    (newId : Nat) (k : String) (now : Nat) (s : Store) :
    ((createApplication userId { name := some nm, teamId := none }
        newId k now false s).2.applications
      = s.applications ++
        [{ id := newId, name := nm, key := k, ownerId := some userId,
           teamId := none, createdAt := now, updatedAt := now }] ∧
     (createApplication userId { name := some nm, teamId := none }
        newId k now false s).1 = .rejected) ∧
    (∀ tid team, findTeam s.teams tid = some team → userId ∈ team.memberIds →
      (createApplication userId { name := some nm, teamId := some tid }
          newId k now false s).2.applications
        = s.applications ++
          [{ id := newId, name := nm, key := k, ownerId := none,
             teamId := some tid, createdAt := now, updatedAt := now }] ∧
      (createApplication userId { name := some nm, teamId := some tid }
          newId k now false s).1 = .rejected) := by
  refine ⟨⟨saveAndProvision_applications _ false s, rfl⟩, ?_⟩
  intro tid team hft hm
  unfold createApplication
  simp only [hft, if_pos hm]
  exact ⟨saveAndProvision_applications _ false s, rfl⟩

/-- Witness for C9's amended theorem: a member create against Team 5
with failing provisioning keeps the record and rejects. -/
theorem create_provision_failure_persists_record_witness :
    (createApplication 2 { name := some "gamma", teamId := some 5 }
        9 "k9" 3 false sampleStore).2.applications
      = sampleStore.applications ++
        [{ id := 9, name := "gamma", key := "k9", ownerId := none,
           teamId := some 5, createdAt := 3, updatedAt := 3 }] ∧
    (createApplication 2 { name := some "gamma", teamId := some 5 }
        9 "k9" 3 false sampleStore).1 = .rejected :=
  (create_provision_failure_persists_record 2 "gamma" 9 "k9" 3
    sampleStore).2 5 teamIn (by decide) (by decide)

/-- Membership in the listing: exactly the projections of the
Applications owned by the user or owned by a Team that currently lists
the user. -/
theorem mem_listApplicationsFor (userId : Nat) (s : Store)
    (p : ApplicationSummary) :
    p ∈ listApplicationsFor userId s ↔
      ∃ a, a ∈ s.applications ∧ p = project a ∧
        (a.ownerId = some userId ∨
          ∃ t, t ∈ s.teams ∧ a.teamId = some t.id ∧ userId ∈ t.memberIds) := by
  simp only [listApplicationsFor, List.mem_map, List.mem_append,
    List.mem_filter, List.mem_flatMap, beq_iff_eq, List.elem_iff]
  constructor
  · rintro ⟨a, ha, rfl⟩
    rcases ha with ⟨ha1, ha2⟩ | ⟨t, ⟨ht1, ht2⟩, ha1, ha2⟩
    · exact ⟨a, ha1, rfl, Or.inl ha2⟩
    · exact ⟨a, ha1, rfl, Or.inr ⟨t, ht1, ha2, ht2⟩⟩
  · rintro ⟨a, ha, rfl, hcase⟩
    refine ⟨a, ?_, rfl⟩
    rcases hcase with h | ⟨t, ht1, ht2, ht3⟩
    · exact Or.inl ⟨ha, h⟩
    · exact Or.inr ⟨t, ⟨ht1, ht3⟩, ha, ht2⟩

/-- The listing has no duplicate entries when record ids and team ids
are unique and the ownership exclusivity invariant holds. -/
theorem nodup_listApplicationsFor (userId : Nat) (s : Store)
    (hids : (s.applications.map Application.id).Nodup)
    (htids : (s.teams.map Team.id).Nodup)
    (hexcl : ∀ a ∈ s.applications, exclusiveOwnership a = true) :
    (listApplicationsFor userId s).Nodup := by
  have happs : s.applications.Nodup := List.Nodup.of_map _ hids
  have hinj := List.inj_on_of_nodup_map hids
  simp only [listApplicationsFor]
  apply List.Nodup.map_on
  · intro x hx y hy hproj
    have hx' : x ∈ s.applications := by
      rcases List.mem_append.mp hx with h | h
      · exact (List.mem_filter.mp h).1
      · rcases List.mem_flatMap.mp h with ⟨t, ht, hxf⟩
        exact (List.mem_filter.mp hxf).1
    have hy' : y ∈ s.applications := by
      rcases List.mem_append.mp hy with h | h
      · exact (List.mem_filter.mp h).1
      · rcases List.mem_flatMap.mp h with ⟨t, ht, hyf⟩
        exact (List.mem_filter.mp hyf).1
    exact hinj hx' hy' (congrArg ApplicationSummary.id hproj)
  · refine List.nodup_append.mpr ⟨?_, ?_, ?_⟩
    · exact List.Nodup.sublist (List.filter_sublist _) happs
    · refine List.nodup_flatMap.mpr ⟨?_, ?_⟩
      · intro t ht
        exact List.Nodup.sublist (List.filter_sublist _) happs
      · have hpw : s.teams.Pairwise (fun t1 t2 => t1.id ≠ t2.id) :=
          List.pairwise_map.mp htids
        have hpw2 : (s.teams.filter (fun t => t.memberIds.contains userId)).Pairwise
            (fun t1 t2 => t1.id ≠ t2.id) :=
          List.Pairwise.sublist (List.filter_sublist _) hpw
        refine hpw2.imp ?_
        intro t1 t2 hne x hx1 hx2
        have e1 : x.teamId = some t1.id := by
          simpa using (List.mem_filter.mp hx1).2
        have e2 : x.teamId = some t2.id := by
          simpa using (List.mem_filter.mp hx2).2
        exact hne (Option.some.inj (e1.symm.trans e2))
    · intro x hxP hxM
      have hxa : x ∈ s.applications := (List.mem_filter.mp hxP).1
      have hown : x.ownerId = some userId := by
        simpa using (List.mem_filter.mp hxP).2
      rcases List.mem_flatMap.mp hxM with ⟨t, ht, hxf⟩
      have hteam : x.teamId = some t.id := by
        simpa using (List.mem_filter.mp hxf).2
      have hex := hexcl x hxa
      simp [exclusiveOwnership, hown, hteam] at hex

/-- C5: listing returns exactly the union of the user's owned
Applications and the Applications of Teams currently listing the user,
with no duplicate entries, each projected to id, name, teamId, ownerId,
createdAt and updatedAt; the key field never appears (two records that
differ only in key have the same listed entry). -/
theorem listApplicationsFor_spec (userId : Nat) (s : Store)
    (hids : (s.applications.map Application.id).Nodup)
    (htids : (s.teams.map Team.id).Nodup)
    (hexcl : ∀ a ∈ s.applications, exclusiveOwnership a = true) :
    (∀ p, p ∈ listApplicationsFor userId s ↔
      ∃ a, a ∈ s.applications ∧ p = project a ∧
        (a.ownerId = some userId ∨
          ∃ t, t ∈ s.teams ∧ a.teamId = some t.id ∧ userId ∈ t.memberIds)) ∧
    (listApplicationsFor userId s).Nodup ∧
    (∀ a newKey, project { a with key := newKey } = project a) := by
  refine ⟨fun p => mem_listApplicationsFor userId s p,
    nodup_listApplicationsFor userId s hids htids hexcl, fun a newKey => rfl⟩

/-- Witness for C5: for user 2 against `sampleStore`, the listing holds
the Team-5 tenant's projection and is duplicate-free. -/
theorem listApplicationsFor_spec_witness :
    project appTeam ∈ listApplicationsFor 2 sampleStore ∧
    (listApplicationsFor 2 sampleStore).Nodup :=
  ⟨(listApplicationsFor_spec 2 sampleStore (by decide) (by decide)
      (by decide)).1 (project appTeam) |>.mpr
      ⟨appTeam, by decide, rfl, Or.inr ⟨teamIn, by decide, rfl, by decide⟩⟩,
   (listApplicationsFor_spec 2 sampleStore (by decide) (by decide)
      (by decide)).2.1⟩

/-- Insertion keeps exactly the members. -/
theorem mem_insertByTimeDesc {a r : LogRecord} {l : List LogRecord} :
    a ∈ insertByTimeDesc r l ↔ a = r ∨ a ∈ l := by
  induction l with
  | nil => simp [insertByTimeDesc]
  | cons x xs ih =>
    by_cases h : x.time ≤ r.time
    · simp [insertByTimeDesc, h]
    · simp [insertByTimeDesc, h, ih]
      tauto

/-- Sorting keeps exactly the members. -/
theorem mem_sortByTimeDesc {a : LogRecord} {l : List LogRecord} :
    a ∈ sortByTimeDesc l ↔ a ∈ l := by
  induction l with
  | nil => simp [sortByTimeDesc]
  | cons x xs ih =>
    simp [sortByTimeDesc, mem_insertByTimeDesc, ih]

/-- Every record a query execution returns satisfies its predicate. -/
theorem runQuery_keep {docs : List LogRecord} {keep : LogRecord → Bool}
    {size : Nat} {r : LogRecord} (h : r ∈ runQuery docs keep size) :
    keep r = true := by
  have h1 : r ∈ sortByTimeDesc (docs.filter keep) := List.take_subset _ _ h
  have h2 : r ∈ docs.filter keep := mem_sortByTimeDesc.mp h1
  exact (List.mem_filter.mp h2).2

/-- C6 counterexample: for a tenant whose log index does not exist, the
logs/* middleware answers an empty array before the handlers validate
their parameters, so a search request with no content parameter (and a
history request with no before parameter) gets an empty 200 array, not
the 400 error the claim requires. -/
theorem missing_parameter_no_index_counterexample :
    searchEndpoint [] [] appOwned none = .ok [] ∧
    searchEndpoint [] [] appOwned none ≠
      .err 400 "Missing \"content\" parameter" ∧
    historyEndpoint [] [] appOwned none none = .ok [] ∧
    historyEndpoint [] [] appOwned none none ≠
      .err 400 "Missing \"before\" parameter" := by
  decide

/-- C6 as amended: for every authorized request whose tenant's log
index exists, a search request with no content parameter and a history
request with no before parameter each get a 400 error whose message
names the missing parameter. -/
theorem missing_parameter_yields_400 (es : List String)
    (docs : List LogRecord) (app : Application)
    (h : es.contains (indexName app.id) = true) :
    searchEndpoint es docs app none =
      .err 400 "Missing \"content\" parameter" ∧
    ∀ content, historyEndpoint es docs app none content =
      .err 400 "Missing \"before\" parameter" := by
  have hmem : indexName app.id ∈ es := List.elem_iff.mp h
  constructor
  · simp [searchEndpoint, hmem]
  · intro content
    simp [historyEndpoint, hmem]

/-- Witness for C6's amended theorem: tenant 1's index exists and both
parameterless requests get their 400. -/
theorem missing_parameter_yields_400_witness :
    searchEndpoint [indexName 1] [] appOwned none =
      .err 400 "Missing \"content\" parameter" ∧
    historyEndpoint [indexName 1] [] appOwned none (some "disk") =
      .err 400 "Missing \"before\" parameter" :=
  ⟨(missing_parameter_yields_400 [indexName 1] [] appOwned (by decide)).1,
   (missing_parameter_yields_400 [indexName 1] [] appOwned (by decide)).2
     (some "disk")⟩

/-- C7: for every authorized search or history request against a
tenant whose log index does not exist, the response is an empty array
with success status, whatever the parameters. -/
theorem no_index_empty_results (es : List String) (docs : List LogRecord)
    (app : Application) (content : Option String) (before : Option Nat)
    (h : es.contains (indexName app.id) = false) :
    searchEndpoint es docs app content = .ok [] ∧
    historyEndpoint es docs app before content = .ok [] := by
  have hmem : indexName app.id ∉ es := by simpa using h
  constructor
  · simp [searchEndpoint, hmem]
  · simp [historyEndpoint, hmem]

/-- Witness for C7: tenant 2 has no index, and fully parameterized
search and history requests both answer the empty array. -/
theorem no_index_empty_results_witness :
    searchEndpoint ["syslog-1"] [logOld] appTeam (some "disk") = .ok [] ∧
    historyEndpoint ["syslog-1"] [logOld] appTeam (some 9) (some "disk") =
      .ok [] :=
  ⟨(no_index_empty_results ["syslog-1"] [logOld] appTeam (some "disk")
      (some 9) (by decide)).1,
   (no_index_empty_results ["syslog-1"] [logOld] appTeam (some "disk")
      (some 9) (by decide)).2⟩

/-- C10: the index-existence middleware runs before the handlers'
parameter validation, so with no index for the tenant, a search request
missing content and a history request missing before each answer the
empty array with success status instead of a 400. -/
theorem index_check_precedes_validation (es : List String)
    (docs : List LogRecord) (app : Application)
    (h : es.contains (indexName app.id) = false) :
    searchEndpoint es docs app none = .ok [] ∧
    historyEndpoint es docs app none none = .ok [] := by
  have hmem : indexName app.id ∉ es := by simpa using h
  constructor
  · simp [searchEndpoint, hmem]
  · simp [historyEndpoint, hmem]

/-- Witness for C10: tenant 1 without an index, parameterless search
and history requests both answer the empty array. -/
theorem index_check_precedes_validation_witness :
    searchEndpoint ["syslog-2"] [logOld] appOwned none = .ok [] ∧
    historyEndpoint ["syslog-2"] [logOld] appOwned none none = .ok [] :=
  ⟨(index_check_precedes_validation ["syslog-2"] [logOld] appOwned
      (by decide)).1,
   (index_check_precedes_validation ["syslog-2"] [logOld] appOwned
      (by decide)).2⟩

/-- C8: every record a history(before=X) call returns has id strictly
below X, and when a content parameter is supplied it additionally
satisfies the 80 percent full-text match on message (AND semantics). -/
theorem history_before_is_exclusive (es : List String)
    (docs : List LogRecord) (app : Application) (b : Nat)
    (content : Option String) (rs : List LogRecord)
    (h : historyEndpoint es docs app (some b) content = .ok rs) :
    ∀ r ∈ rs, r.id < b ∧
      ∀ c, content = some c →
        matchSatisfied { query := c, minimumShouldMatchPct := 80 }
          r.message = true := by
  intro r hr
  unfold historyEndpoint at h
  by_cases hex : es.contains (indexName app.id) = false
  · rw [if_pos hex] at h
    obtain rfl : ([] : List LogRecord) = rs := LogsOutcome.ok.inj h
    exact absurd hr (List.not_mem_nil r)
  · rw [if_neg hex] at h
    obtain rfl := (LogsOutcome.ok.inj h).symm
    have hk := runQuery_keep hr
    rw [docMatchesHistory, Bool.and_eq_true] at hk
    refine ⟨of_decide_eq_true hk.1, ?_⟩
    intro c hc
    have hk2 := hk.2
    rw [hc] at hk2
    simpa using hk2

/-- Witness for C8: a history call with before = 10 and
content = "disk error" returns exactly `logOld`, whose id is below 10
and whose message passes the 80 percent match. -/
theorem history_before_is_exclusive_witness :
    logOld.id < 10 ∧
    matchSatisfied { query := "disk error", minimumShouldMatchPct := 80 }
      logOld.message = true :=
  have H := history_before_is_exclusive [indexName 1] [logOld, logNew]
    appOwned 10 (some "disk error") [logOld] (by decide) logOld (by decide)
  ⟨H.1, H.2 "disk error" rfl⟩

end Syslog
